import Mathlib

/-!
Shallow embedding of the GCM sender retry engine (`sender.go` of mercari/gcm).

The transport layer (`Sender.send`, which performs one HTTP exchange) is
modelled as an oracle `Transport := Nat → List String → Except String Response`:
the oracle receives the index of the exchange (round 0 is the initial send,
round k the k-th retry) and the registration-IDs submitted for that round, and
either fails (network error or non-200 status, collapsed into the error string)
or returns the decoded `Response`.  The random source `rand.Intn` is modelled
by a stream `rng : Nat → Nat`, the draw for loop iteration `i` being
`rng i % bound` (always in `[0, bound)`, as `rand.Intn` guarantees).
`time.Sleep` is modelled by recording the sleep durations in a trace.
-/

namespace gcm

/-- Initial delay before first retry, without jitter (source constant
`backoffInitialDelay`). -/
def backoffInitialDelay : Nat := 1000

/-- Maximum delay before a retry (source constant `maxBackoffDelay`). -/
def maxBackoffDelay : Nat := 1024000

/-- Max number of registration IDs in one message (source constant
`maxRegistrationIDs`). -/
def maxRegistrationIDs : Nat := 1000

/-- Max time GCM storage can store messages when the device is offline
(source constant `maxTimeToLive`, 4 weeks in seconds). -/
def maxTimeToLive : Int := 2419200

/-- Modelled from the spec: the Send Request (`Message` in message.go, which is
not part of the provided source).  Only the fields the sender core reads are
modelled: the ordered target list `RegistrationIDs` and the `TimeToLive` bound.
Go distinguishes a nil slice from an empty slice; both are collapsed into the
empty list here (both are rejected by validation with the same outcome). -/
structure Message where
  RegistrationIDs : List String
  TimeToLive : Int
deriving Repr, DecidableEq

/-- Modelled from the spec: one Per-Target Result (`Result` in response.go,
which is not part of the provided source).  `MessageID` is nonempty exactly on
success, `RegistrationID` is the optional canonical replacement id, and
`Error` is the named failure reason ("Unavailable" is the retryable kind).
The Go zero value has all three fields empty. -/
structure Result where
  MessageID : String
  RegistrationID : String
  Error : String
deriving Repr, DecidableEq

/-- Modelled from the spec: a Round Response (`Response` in response.go, which
is not part of the provided source): summary counts, the gateway-assigned
multicast identifier, and the per-target results aligned to the round's
submitted target list. -/
structure Response where
  MulticastID : Int
  Success : Int
  Failure : Int
  CanonicalIDs : Int
  Results : List Result
deriving Repr, DecidableEq

/-- The sender configuration (`Sender` struct): only the fields the validation
gate reads are modelled; the `Http` client field is part of the transport
oracle. -/
structure Sender where
  ApiKey : String
  URL : String
deriving Repr, DecidableEq

/-- The running per-target result map `allResults : map[string]Result`,
modelled as an association list where the most recent insertion for a key
shadows older ones (Go map assignment overwrites). -/
abbrev ResMap : Type := List (String × Result)

/-- Go map assignment `m[k] = v`. -/
def mapInsert (m : ResMap) (k : String) (v : Result) : ResMap := (k, v) :: m

/-- Go map lookup `m[k]`, returning `none` when the key is absent. -/
def mapLookup (m : ResMap) (k : String) : Option Result :=
  match List.find? (fun p => p.1 == k) m with
  | some p => some p.2
  | none => none

/-- The Go zero value of `Result`, produced by `result, _ := allResults[k]`
when the key is absent. -/
def zeroResult : Result := ⟨"", "", ""⟩

/-- Embeds `checkSender` (sender.go lines 232-247): only the empty-ApiKey
check can fail; the `Http`/`URL` default initialisation is irrelevant to the
modelled behaviour. -/
def checkSender (sender : Sender) : Option String :=
  if sender.ApiKey = "" then some "the sender API key must not be empty"
  else none

/-- Embeds `checkMessage` (sender.go lines 250-264).  The nil-message pointer
is modelled by `Option Message`; the nil-slice and empty-slice branches are
collapsed (see `Message`).  Returns the validated message on success. -/
def checkMessage : Option Message → Except String Message
  | none => Except.error "the message must not be nil"
  | some msg =>
    if msg.RegistrationIDs.length = 0 then
      Except.error "the message must specify at least one registration ID"
    else if msg.RegistrationIDs.length > maxRegistrationIDs then
      Except.error "the message may specify at most 1000 registration IDs"
    else if msg.TimeToLive < 0 ∨ maxTimeToLive < msg.TimeToLive then
      Except.error "the message TimeToLive field must be an integer between 0 and 2419200"
    else Except.ok msg

/-- Embeds `min` (sender.go lines 223-228); named `minGo` to avoid clashing
with the library `min`. -/
def minGo (a b : Nat) : Nat := if a < b then a else b

/-- The backoff policy of one retry iteration (sender.go lines 134-136):
given the current delay `d` and the raw random draw `r`, returns the sleep
duration `d/2 + (r mod d)` (i.e. `backoff/2 + rand.Intn(backoff)`) and the
next delay `min(2*d, maxBackoffDelay)`. -/
def nextDelay (d r : Nat) : Nat × Nat :=
  (d / 2 + r % d, minGo (2 * d) maxBackoffDelay)

/-- The sequence of backoff delays: `backoffSeq n` is the delay in force after
`n` doublings, starting from `backoffInitialDelay`. -/
def backoffSeq : Nat → Nat
  | 0 => backoffInitialDelay
  | n + 1 => minGo (2 * backoffSeq n) maxBackoffDelay

/-- The loop body of `updateStatus` (sender.go lines 209-215): walks the
round's results in order, pairing result `i` with `RegistrationIDs[i]`;
records each pair in the map and appends the registration ID to `unsent` when
the result's error is "Unavailable".  Returns `none` when the index `i` goes
out of bounds of the registration-ID list (a Go panic). -/
def updateStatusCore : List Result → List String → ResMap → List String →
    Option (ResMap × List String)
  | [], _, m, unsent => some (m, unsent)
  | _ :: _, [], _, _ => none
  | r :: rs, regID :: ids, m, unsent =>
    updateStatusCore rs ids (mapInsert m regID r)
      (if r.Error == "Unavailable" then unsent ++ [regID] else unsent)

/-- Embeds `updateStatus` (sender.go lines 207-218): records the round's
results, replaces the message's registration IDs with the unsent (retryable)
subset and returns its size.  `none` models the out-of-bounds panic. -/
def updateStatus (msg : Message) (resp : Response) (allResults : ResMap) :
    Option (Message × ResMap × Nat) :=
  match updateStatusCore resp.Results msg.RegistrationIDs allResults [] with
  | none => none
  | some (m2, unsent) =>
    some ({ msg with RegistrationIDs := unsent }, m2, unsent.length)

/-- The subset of a round's targets whose per-target result carried the
retryable error kind "Unavailable", in order. -/
def retryableTargets (ids : List String) (rs : List Result) : List String :=
  List.map Prod.fst
    (List.filter (fun p => p.2.Error == "Unavailable") (List.zip ids rs))

/-- The final aggregation (sender.go lines 147-169): walks the original
registration IDs in order, looks each up in the running result map (absent
keys yield the zero `Result`), and tallies success / failure / canonical-ID
counts.  The multicast ID is the most recent round's. -/
def buildFinal (regIDs : List String) (allResults : ResMap) (mid : Int) :
    Response :=
  let finalResults := regIDs.map fun id => (mapLookup allResults id).getD zeroResult
  { MulticastID := mid
    Success := Int.ofNat (finalResults.countP fun r => r.MessageID != "")
    Failure := Int.ofNat (finalResults.countP fun r => r.MessageID == "")
    CanonicalIDs := Int.ofNat
      (finalResults.countP fun r => r.MessageID != "" && r.RegistrationID != "")
    Results := finalResults }

/-- Outcome of a `Send`/`SendNoRetry` call: a response, an error, or a Go
panic (only reachable when a round's results array is longer than that
round's target list). -/
inductive SendOutcome where
  | ok (resp : Response)
  | error (e : String)
  | panicked
deriving Repr, DecidableEq

/-- Full observable result of one call: the outcome, the final state of the
caller's message object (its `RegistrationIDs` field may have been mutated),
the trace of backoff sleeps performed, and the number of transport exchanges
performed. -/
structure SendResult where
  outcome : SendOutcome
  msg : Option Message
  sleeps : List Nat
  calls : Nat
deriving Repr, DecidableEq

/-- The transport oracle: exchange index and submitted registration IDs to
error-or-response (see the module docstring). -/
abbrev Transport : Type := Nat → List String → Except String Response

/-- The retry loop of `Send` (sender.go lines 133-141) plus its exit code
(lines 143-169).  Mirrors the Go `for` loop: the condition
`updateStatus(msg, resp, allResults) > 0 && i < retries` evaluates
`updateStatus` first on every check, including the final failing one;
`remaining` is `retries - i`, `i` is the loop counter (round `i+1` is the
next exchange), `calls` and `sleeps` are the running traces.  On every
non-panic exit the message's registration IDs are restored to `orig`. -/
def sendLoop (oracle : Transport) (rng : Nat → Nat) (orig : List String) :
    Nat → Nat → Message → Response → ResMap → Nat → Nat → List Nat → SendResult
  | remaining, i, msg, resp, allResults, backoff, calls, sleeps =>
    match updateStatus msg resp allResults with
    | none => ⟨.panicked, some msg, sleeps, calls⟩
    | some (msg2, all2, cnt) =>
      match remaining with
      | 0 =>
        ⟨.ok (buildFinal orig all2 resp.MulticastID),
          some { msg2 with RegistrationIDs := orig }, sleeps, calls⟩
      | remaining2 + 1 =>
        if cnt = 0 then
          ⟨.ok (buildFinal orig all2 resp.MulticastID),
            some { msg2 with RegistrationIDs := orig }, sleeps, calls⟩
        else
          let nd := nextDelay backoff (rng i)
          match oracle (i + 1) msg2.RegistrationIDs with
          | Except.error e =>
            ⟨.error e, some { msg2 with RegistrationIDs := orig },
              sleeps ++ [nd.1], calls + 1⟩
          | Except.ok resp2 =>
            sendLoop oracle rng orig remaining2 (i + 1) msg2 resp2 all2 nd.2
              (calls + 1) (sleeps ++ [nd.1])

/-- Embeds `Sender.Send` (sender.go lines 112-170): validation, the initial
exchange, the fast path (`resp.Failure == 0 || retries == 0`), and the retry
loop. -/
def Sender.Send (s : Sender) (msg? : Option Message) (retries : Int)
    (oracle : Transport) (rng : Nat → Nat) : SendResult :=
  match checkSender s with
  | some e => ⟨.error e, msg?, [], 0⟩
  | none =>
    match checkMessage msg? with
    | Except.error e => ⟨.error e, msg?, [], 0⟩
    | Except.ok msg =>
      if retries < 0 then ⟨.error "retries must not be negative", msg?, [], 0⟩
      else
        match oracle 0 msg.RegistrationIDs with
        | Except.error e => ⟨.error e, some msg, [], 1⟩
        | Except.ok resp =>
          if resp.Failure = 0 ∨ retries = 0 then ⟨.ok resp, some msg, [], 1⟩
          else
            sendLoop oracle rng msg.RegistrationIDs retries.toNat 0 msg resp []
              backoffInitialDelay 1 []

/-- Embeds `Sender.SendNoRetry` (sender.go lines 96-104): validation then a
single exchange. -/
def Sender.SendNoRetry (s : Sender) (msg? : Option Message)
    (oracle : Transport) : SendResult :=
  match checkSender s with
  | some e => ⟨.error e, msg?, [], 0⟩
  | none =>
    match checkMessage msg? with
    | Except.error e => ⟨.error e, msg?, [], 0⟩
    | Except.ok msg =>
      match oracle 0 msg.RegistrationIDs with
      | Except.error e => ⟨.error e, some msg, [], 1⟩
      | Except.ok resp => ⟨.ok resp, some msg, [], 1⟩

/-! ## Helper lemmas about `updateStatus` -/

theorem updateStatusCore_isSome : ∀ (rs : List Result) (ids : List String)
    (m : ResMap) (acc : List String), rs.length ≤ ids.length →
    (updateStatusCore rs ids m acc).isSome = true
  | [], _, _, _, _ => rfl
  | _ :: _, [], _, _, h => by simp at h
  | r :: rs, i :: ids, m, acc, h => by
    simp only [updateStatusCore]
    exact updateStatusCore_isSome rs ids _ _ (by simpa using h)

theorem updateStatusCore_unsent : ∀ (rs : List Result) (ids : List String)
    (m : ResMap) (acc : List String) (m2 : ResMap) (unsent : List String),
    updateStatusCore rs ids m acc = some (m2, unsent) →
    unsent = acc ++ retryableTargets ids rs
  | [], ids, m, acc, m2, unsent, h => by
    simp only [updateStatusCore] at h
    cases h
    simp [retryableTargets]
  | _ :: _, [], _, _, _, _, h => Option.noConfusion h
  | r :: rs, i :: ids, m, acc, m2, unsent, h => by
    simp only [updateStatusCore] at h
    have ih := updateStatusCore_unsent rs ids _ _ m2 unsent h
    cases hc : r.Error == "Unavailable" <;> rw [hc] at ih <;>
      simp [retryableTargets, hc, ih]

theorem retryableTargets_mem {ids : List String} {rs : List Result}
    {x : String} (hx : x ∈ retryableTargets ids rs) : x ∈ ids := by
  simp only [retryableTargets, List.mem_map] at hx
  obtain ⟨⟨a, b⟩, hp, rfl⟩ := hx
  exact (List.of_mem_zip (List.mem_of_mem_filter hp)).1

theorem updateStatus_some {msg msg2 : Message} {resp : Response}
    {all all2 : ResMap} {cnt : Nat}
    (h : updateStatus msg resp all = some (msg2, all2, cnt)) :
    msg2.RegistrationIDs = retryableTargets msg.RegistrationIDs resp.Results ∧
    msg2.TimeToLive = msg.TimeToLive ∧ cnt = msg2.RegistrationIDs.length := by
  unfold updateStatus at h
  cases hc : updateStatusCore resp.Results msg.RegistrationIDs all [] with
  | none => rw [hc] at h; exact Option.noConfusion h
  | some pr =>
    obtain ⟨m2, unsent⟩ := pr
    rw [hc] at h
    cases h
    have := updateStatusCore_unsent _ _ _ _ _ _ hc
    simp only [List.nil_append] at this
    exact ⟨this, rfl, rfl⟩

theorem updateStatus_isSome {msg : Message} {resp : Response} {all : ResMap}
    (h : resp.Results.length ≤ msg.RegistrationIDs.length) :
    (updateStatus msg resp all).isSome = true := by
  unfold updateStatus
  cases hc : updateStatusCore resp.Results msg.RegistrationIDs all [] with
  | none =>
    have := updateStatusCore_isSome resp.Results msg.RegistrationIDs all [] h
    rw [hc] at this
    exact absurd this (by simp)
  | some pr => rfl


/-! ## Helper lemmas about `sendLoop` -/

theorem sendLoop_msg (oracle : Transport) (rng : Nat → Nat) (orig : List String) :
    ∀ (remaining i : Nat) (msg : Message) (resp : Response) (all : ResMap)
      (backoff calls : Nat) (sleeps : List Nat),
      (sendLoop oracle rng orig remaining i msg resp all backoff calls sleeps).outcome ≠
        SendOutcome.panicked →
      (sendLoop oracle rng orig remaining i msg resp all backoff calls sleeps).msg =
        some ⟨orig, msg.TimeToLive⟩ := by
  intro remaining
  induction remaining with
  | zero =>
    intro i msg resp all backoff calls sleeps h
    unfold sendLoop at h ⊢
    cases hu : updateStatus msg resp all with
    | none => rw [hu] at h; simp at h
    | some t =>
      obtain ⟨msg2, all2, cnt⟩ := t
      have hms := (updateStatus_some hu).2.1
      simp [hms]
  | succ rem ih =>
    intro i msg resp all backoff calls sleeps h
    unfold sendLoop at h ⊢
    cases hu : updateStatus msg resp all with
    | none => rw [hu] at h; simp at h
    | some t =>
      obtain ⟨msg2, all2, cnt⟩ := t
      rw [hu] at h
      dsimp only at h ⊢
      have hms := (updateStatus_some hu).2.1
      by_cases hcnt : cnt = 0
      · simp [hcnt, hms]
      · simp only [if_neg hcnt] at h ⊢
        cases ho : oracle (i + 1) msg2.RegistrationIDs with
        | error e => simp [hms]
        | ok resp2 =>
          rw [ho] at h
          dsimp only at h ⊢
          rw [← hms]
          exact ih (i + 1) msg2 resp2 all2 _ _ _ h

theorem sendLoop_ok_shape (oracle : Transport) (rng : Nat → Nat) (orig : List String) :
    ∀ (remaining i : Nat) (msg : Message) (resp : Response) (all : ResMap)
      (backoff calls : Nat) (sleeps : List Nat) (r : Response),
      (sendLoop oracle rng orig remaining i msg resp all backoff calls sleeps).outcome =
        SendOutcome.ok r →
      ∃ m2 mid, r = buildFinal orig m2 mid := by
  intro remaining
  induction remaining with
  | zero =>
    intro i msg resp all backoff calls sleeps r h
    unfold sendLoop at h
    cases hu : updateStatus msg resp all with
    | none => rw [hu] at h; simp at h
    | some t =>
      obtain ⟨msg2, all2, cnt⟩ := t
      rw [hu] at h
      dsimp only at h
      simp only [SendOutcome.ok.injEq] at h
      exact ⟨all2, resp.MulticastID, h.symm⟩
  | succ rem ih =>
    intro i msg resp all backoff calls sleeps r h
    unfold sendLoop at h
    cases hu : updateStatus msg resp all with
    | none => rw [hu] at h; simp at h
    | some t =>
      obtain ⟨msg2, all2, cnt⟩ := t
      rw [hu] at h
      dsimp only at h
      by_cases hcnt : cnt = 0
      · rw [if_pos hcnt] at h
        simp only [SendOutcome.ok.injEq] at h
        exact ⟨all2, resp.MulticastID, h.symm⟩
      · rw [if_neg hcnt] at h
        cases ho : oracle (i + 1) msg2.RegistrationIDs with
        | error e => rw [ho] at h; simp at h
        | ok resp2 =>
          rw [ho] at h
          dsimp only at h
          exact ih (i + 1) msg2 resp2 all2 _ _ _ r h

theorem sendLoop_error_src (oracle : Transport) (rng : Nat → Nat) (orig : List String) :
    ∀ (remaining i : Nat) (msg : Message) (resp : Response) (all : ResMap)
      (backoff : Nat) (sleeps : List Nat) (e : String),
      (sendLoop oracle rng orig remaining i msg resp all backoff (i + 1) sleeps).outcome =
        SendOutcome.error e →
      ∃ k ts, oracle k ts = Except.error e ∧
        (sendLoop oracle rng orig remaining i msg resp all backoff (i + 1) sleeps).calls =
          k + 1 := by
  intro remaining
  induction remaining with
  | zero =>
    intro i msg resp all backoff sleeps e h
    unfold sendLoop at h
    cases hu : updateStatus msg resp all with
    | none => rw [hu] at h; simp at h
    | some t =>
      obtain ⟨msg2, all2, cnt⟩ := t
      rw [hu] at h
      simp at h
  | succ rem ih =>
    intro i msg resp all backoff sleeps e h
    unfold sendLoop at h ⊢
    cases hu : updateStatus msg resp all with
    | none => rw [hu] at h; simp at h
    | some t =>
      obtain ⟨msg2, all2, cnt⟩ := t
      rw [hu] at h
      dsimp only at h ⊢
      by_cases hcnt : cnt = 0
      · rw [if_pos hcnt] at h; simp at h
      · rw [if_neg hcnt] at h
        simp only [if_neg hcnt]
        cases ho : oracle (i + 1) msg2.RegistrationIDs with
        | error e2 =>
          rw [ho] at h
          dsimp only at h ⊢
          simp only [SendOutcome.error.injEq] at h
          exact ⟨i + 1, msg2.RegistrationIDs, h ▸ ho, rfl⟩
        | ok resp2 =>
          rw [ho] at h
          dsimp only at h ⊢
          exact ih (i + 1) msg2 resp2 all2 _ _ e h

theorem sendLoop_calls_le (oracle : Transport) (rng : Nat → Nat) (orig : List String) :
    ∀ (remaining i : Nat) (msg : Message) (resp : Response) (all : ResMap)
      (backoff calls : Nat) (sleeps : List Nat),
      (sendLoop oracle rng orig remaining i msg resp all backoff calls sleeps).calls ≤
        calls + remaining := by
  intro remaining
  induction remaining with
  | zero =>
    intro i msg resp all backoff calls sleeps
    unfold sendLoop
    cases hu : updateStatus msg resp all with
    | none => simp
    | some t =>
      obtain ⟨msg2, all2, cnt⟩ := t
      simp
  | succ rem ih =>
    intro i msg resp all backoff calls sleeps
    unfold sendLoop
    cases hu : updateStatus msg resp all with
    | none => simp
    | some t =>
      obtain ⟨msg2, all2, cnt⟩ := t
      dsimp only
      by_cases hcnt : cnt = 0
      · simp [hcnt]
      · simp only [if_neg hcnt]
        cases ho : oracle (i + 1) msg2.RegistrationIDs with
        | error e => dsimp only; omega
        | ok resp2 =>
          dsimp only
          have := ih (i + 1) msg2 resp2 all2 (nextDelay backoff (rng i)).2 (calls + 1)
            (sleeps ++ [(nextDelay backoff (rng i)).1])
          omega

theorem sendLoop_calls_ge (oracle : Transport) (rng : Nat → Nat) (orig : List String) :
    ∀ (remaining i : Nat) (msg : Message) (resp : Response) (all : ResMap)
      (backoff calls : Nat) (sleeps : List Nat),
      calls ≤
        (sendLoop oracle rng orig remaining i msg resp all backoff calls sleeps).calls := by
  intro remaining
  induction remaining with
  | zero =>
    intro i msg resp all backoff calls sleeps
    unfold sendLoop
    cases hu : updateStatus msg resp all with
    | none => simp
    | some t =>
      obtain ⟨msg2, all2, cnt⟩ := t
      simp
  | succ rem ih =>
    intro i msg resp all backoff calls sleeps
    unfold sendLoop
    cases hu : updateStatus msg resp all with
    | none => simp
    | some t =>
      obtain ⟨msg2, all2, cnt⟩ := t
      dsimp only
      by_cases hcnt : cnt = 0
      · simp [hcnt]
      · simp only [if_neg hcnt]
        cases ho : oracle (i + 1) msg2.RegistrationIDs with
        | error e => dsimp only; omega
        | ok resp2 =>
          dsimp only
          have := ih (i + 1) msg2 resp2 all2 (nextDelay backoff (rng i)).2 (calls + 1)
            (sleeps ++ [(nextDelay backoff (rng i)).1])
          omega



/-! ## Concrete values used by examples and witnesses -/

/-- A well-formed sender used by concrete instances. -/
def sEx : Sender := ⟨"key", "http://example"⟩

/-- A well-formed three-target message used by concrete instances. -/
def msgEx : Message := ⟨["r1", "r2", "r3"], 0⟩

/-- Round-0 response for the three-target scenario of the spec's worked
example: success, retryable failure, terminal failure. -/
def resp0Ex : Response :=
  ⟨100, 1, 2, 0,
    [⟨"mid1", "", ""⟩, ⟨"", "", "Unavailable"⟩, ⟨"", "", "NotRegistered"⟩]⟩

/-- Round-1 response for the worked example: success for the one retried
target. -/
def resp1Ex : Response := ⟨101, 1, 0, 0, [⟨"mid2", "", ""⟩]⟩

/-- Transport for the worked example: answers round 0 on the full list and
round 1 only when the submitted target list is exactly `["r2"]`; any other
exchange fails.  A successful overall run therefore certifies that round 1
was sent with exactly the one retryable target. -/
def oracleEx : Transport := fun k ts =>
  if k = 0 ∧ ts = ["r1", "r2", "r3"] then Except.ok resp0Ex
  else if k = 1 ∧ ts = ["r2"] then Except.ok resp1Ex
  else Except.error "unexpected round"

/-- A random stream that always draws 0. -/
def rngEx : Nat → Nat := fun _ => 0

/-- A transport that fails every exchange. -/
def oracleFail : Transport := fun _ _ => Except.error "boom"

/-- A transport that always succeeds and returns one success result per
submitted target (so it satisfies the per-round length contract). -/
def oracleLen : Transport := fun _ ts =>
  Except.ok ⟨7, Int.ofNat ts.length, 0, 0, ts.map fun _ => ⟨"m", "", ""⟩⟩

/-! ## Claim theorems -/

/-- C3: for every positive current delay `d` and any raw random draw `r`, one
retry iteration sleeps for a duration in `[d/2, d/2 + d)` (integer division,
uniform draw from `[0, d)`) and sets the next delay to `min(2*d, 1024000)`;
and the delay sequence starting from the initial delay 1000 never exceeds
1024000 no matter how many times it is doubled. -/
theorem C3_backoff_bounds (d r : Nat) (hd : 0 < d) :
    d / 2 ≤ (nextDelay d r).1 ∧ (nextDelay d r).1 < d / 2 + d ∧
    (nextDelay d r).2 = minGo (2 * d) 1024000 ∧
    ∀ n, backoffSeq n ≤ 1024000 := by
  refine ⟨Nat.le_add_right _ _, Nat.add_lt_add_left (Nat.mod_lt r hd) _, rfl, ?_⟩
  intro n
  induction n with
  | zero => norm_num [backoffSeq, backoffInitialDelay]
  | succ n ih =>
    have hm : minGo (2 * backoffSeq n) maxBackoffDelay ≤ maxBackoffDelay := by
      unfold minGo
      split <;> omega
    simpa [backoffSeq, maxBackoffDelay] using hm

/-- Witness for C3 at delay 1000 and draw 1234567. -/
theorem C3_backoff_bounds_witness :
    0 < 1000 ∧
    (1000 / 2 ≤ (nextDelay 1000 1234567).1 ∧
      (nextDelay 1000 1234567).1 < 1000 / 2 + 1000 ∧
      (nextDelay 1000 1234567).2 = minGo (2 * 1000) 1024000 ∧
      ∀ n, backoffSeq n ≤ 1024000) :=
  ⟨by decide, C3_backoff_bounds 1000 1234567 (by decide)⟩

/-- C10: `updateStatus` looks up the message's registration-ID list at every
index of the response's results array; when the results array is no longer
than the registration-ID list every lookup is in bounds (no panic), and
without that precondition the lookup can go out of bounds, e.g. for an empty
registration-ID list and a one-element results array. -/
theorem C10_updateStatus_bounds :
    (∀ (msg : Message) (resp : Response) (all : ResMap),
      resp.Results.length ≤ msg.RegistrationIDs.length →
      (updateStatus msg resp all).isSome = true) ∧
    updateStatus ⟨[], 0⟩ ⟨0, 0, 0, 0, [⟨"", "", ""⟩]⟩ [] = none :=
  ⟨fun _ _ _ h => updateStatus_isSome h, by decide⟩

/-- Witness for C10 at a one-target message with a one-result response. -/
theorem C10_updateStatus_bounds_witness :
    (Response.Results ⟨0, 1, 0, 0, [⟨"m", "", ""⟩]⟩).length ≤
      (Message.RegistrationIDs ⟨["a"], 0⟩).length ∧
    (updateStatus ⟨["a"], 0⟩ ⟨0, 1, 0, 0, [⟨"m", "", ""⟩]⟩ []).isSome = true :=
  ⟨by decide,
    C10_updateStatus_bounds.1 ⟨["a"], 0⟩ ⟨0, 1, 0, 0, [⟨"m", "", ""⟩]⟩ [] (by decide)⟩

/-- C8: the spec's worked example.  Three targets; round 0 returns
[success, retryable failure, terminal failure]; retry budget 1.  The oracle
only answers round 1 for the target list `["r2"]` (the second original
target), so the successful outcome certifies round 1 was sent with exactly
that one target.  The aggregated response has Success = 2, Failure = 1, and
results in original order [success, success, terminal failure]; one backoff
sleep of 500 = 1000/2 + 0 was performed and two exchanges took place. -/
theorem C8_worked_example :
    Sender.Send sEx (some msgEx) 1 oracleEx rngEx =
      ⟨SendOutcome.ok ⟨101, 2, 1, 0,
          [⟨"mid1", "", ""⟩, ⟨"mid2", "", ""⟩, ⟨"", "", "NotRegistered"⟩]⟩,
        some msgEx, [500], 2⟩ := by
  decide

/-- C9: `Send` with a retry budget of 0 is observationally equivalent to
`SendNoRetry`: identical validation, identical transport exchanges, identical
result, message state, sleeps and call count, for every sender, message and
transport behaviour. -/
theorem C9_send_zero_eq_sendNoRetry (s : Sender) (msg? : Option Message)
    (oracle : Transport) (rng : Nat → Nat) :
    Sender.Send s msg? 0 oracle rng = Sender.SendNoRetry s msg? oracle := by
  unfold Sender.Send Sender.SendNoRetry
  cases checkSender s with
  | some e => rfl
  | none =>
    dsimp only
    cases checkMessage msg? with
    | error e => rfl
    | ok msg =>
      dsimp only
      rw [if_neg (show ¬((0 : Int) < 0) by norm_num)]
      cases oracle 0 msg.RegistrationIDs with
      | error e => rfl
      | ok resp =>
        dsimp only
        rw [if_pos (Or.inr rfl)]



/-- A message that passes validation is returned unchanged by
`checkMessage`, and conversely an `ok` verdict identifies the input. -/
theorem checkMessage_ok {msg? : Option Message} {m : Message}
    (h : checkMessage msg? = Except.ok m) : msg? = some m := by
  cases msg? with
  | none => exact Except.noConfusion h
  | some msg =>
    simp only [checkMessage] at h
    split at h
    · exact Except.noConfusion h
    · split at h
      · exact Except.noConfusion h
      · split at h
        · exact Except.noConfusion h
        · cases h
          rfl

/-- C6: when validation passes, the retry budget is non-negative and round 0
succeeds with zero reported failures — or the retry budget is 0 — `Send`
returns round 0's response verbatim as the aggregated response (identical
length, order and summary counts), with no backoff sleep, exactly one
transport exchange and the message untouched. -/
theorem C6_fast_path (s : Sender) (msg : Message) (retries : Int)
    (oracle : Transport) (rng : Nat → Nat) (resp0 : Response)
    (hs : checkSender s = none) (hm : checkMessage (some msg) = Except.ok msg)
    (hr : 0 ≤ retries) (h0 : oracle 0 msg.RegistrationIDs = Except.ok resp0)
    (hfast : resp0.Failure = 0 ∨ retries = 0) :
    Sender.Send s (some msg) retries oracle rng =
      ⟨SendOutcome.ok resp0, some msg, [], 1⟩ := by
  unfold Sender.Send
  rw [hs]
  dsimp only
  rw [hm]
  dsimp only
  rw [if_neg (by omega), h0]
  dsimp only
  rw [if_pos hfast]

/-- Witness for C6: a single-target message whose round 0 reports zero
failures. -/
theorem C6_fast_path_witness :
    checkSender sEx = none ∧
    checkMessage (some msgEx) = Except.ok msgEx ∧
    (0 : Int) ≤ 3 ∧
    oracleLen 0 msgEx.RegistrationIDs =
      Except.ok ⟨7, 3, 0, 0, [⟨"m", "", ""⟩, ⟨"m", "", ""⟩, ⟨"m", "", ""⟩]⟩ ∧
    Sender.Send sEx (some msgEx) 3 oracleLen rngEx =
      ⟨SendOutcome.ok ⟨7, 3, 0, 0, [⟨"m", "", ""⟩, ⟨"m", "", ""⟩, ⟨"m", "", ""⟩]⟩,
        some msgEx, [], 1⟩ :=
  ⟨rfl, rfl, by norm_num, rfl,
    C6_fast_path sEx msgEx 3 oracleLen rngEx _ rfl rfl (by norm_num) rfl
      (Or.inl rfl)⟩

/-- C5: after every terminating (non-panicking) call to `Send` — aggregated
response, fast path, validation failure, negative retry budget, or transport
failure in any round — the caller's message object is exactly its pre-call
value; in particular its RegistrationIDs field is restored. -/
theorem C5_restoration (s : Sender) (msg? : Option Message) (retries : Int)
    (oracle : Transport) (rng : Nat → Nat)
    (h : (Sender.Send s msg? retries oracle rng).outcome ≠
      SendOutcome.panicked) :
    (Sender.Send s msg? retries oracle rng).msg = msg? := by
  unfold Sender.Send at h ⊢
  cases hcs : checkSender s with
  | some e => rfl
  | none =>
    rw [hcs] at h
    dsimp only at h ⊢
    cases hcm : checkMessage msg? with
    | error e => rfl
    | ok msg =>
      rw [hcm] at h
      have hsome := checkMessage_ok hcm
      dsimp only at h ⊢
      by_cases hneg : retries < 0
      · rw [if_pos hneg]
      · rw [if_neg hneg] at h ⊢
        cases h0 : oracle 0 msg.RegistrationIDs with
        | error e => exact hsome.symm
        | ok resp =>
          rw [h0] at h
          dsimp only at h ⊢
          by_cases hfast : resp.Failure = 0 ∨ retries = 0
          · rw [if_pos hfast]
            exact hsome.symm
          · rw [if_neg hfast] at h ⊢
            rw [sendLoop_msg oracle rng msg.RegistrationIDs retries.toNat 0 msg
              resp [] backoffInitialDelay 1 [] h, hsome]

/-- Witness for C5: the three-target worked example terminates normally and
leaves the message in its pre-call state. -/
theorem C5_restoration_witness :
    (Sender.Send sEx (some msgEx) 1 oracleEx rngEx).outcome ≠
      SendOutcome.panicked ∧
    (Sender.Send sEx (some msgEx) 1 oracleEx rngEx).msg = some msgEx :=
  ⟨by decide, C5_restoration sEx (some msgEx) 1 oracleEx rngEx (by decide)⟩

/-- C4: when validation passes and the retry budget is non-negative, if
`Send` returns an error then that error is a transport-exchange failure
(network or non-200 status), the failing exchange was the last one performed
(no further retry after it, no partial aggregated response), and the
message's RegistrationIDs list is restored to the original full list before
the error propagates. -/
theorem C4_transport_failure (s : Sender) (msg : Message) (retries : Int)
    (oracle : Transport) (rng : Nat → Nat) (e : String)
    (hs : checkSender s = none) (hm : checkMessage (some msg) = Except.ok msg)
    (hr : 0 ≤ retries)
    (herr : (Sender.Send s (some msg) retries oracle rng).outcome =
      SendOutcome.error e) :
    (Sender.Send s (some msg) retries oracle rng).msg = some msg ∧
    ∃ k ts, oracle k ts = Except.error e ∧
      (Sender.Send s (some msg) retries oracle rng).calls = k + 1 := by
  unfold Sender.Send at herr ⊢
  rw [hs] at herr ⊢
  dsimp only at herr ⊢
  rw [hm] at herr ⊢
  dsimp only at herr ⊢
  rw [if_neg (by omega)] at herr ⊢
  cases h0 : oracle 0 msg.RegistrationIDs with
  | error e0 =>
    rw [h0] at herr
    dsimp only at herr ⊢
    cases herr
    exact ⟨rfl, 0, msg.RegistrationIDs, h0, rfl⟩
  | ok resp =>
    rw [h0] at herr
    dsimp only at herr ⊢
    by_cases hfast : resp.Failure = 0 ∨ retries = 0
    · rw [if_pos hfast] at herr
      exact absurd herr (by simp)
    · rw [if_neg hfast] at herr ⊢
      constructor
      · rw [sendLoop_msg oracle rng msg.RegistrationIDs retries.toNat 0 msg
          resp [] backoffInitialDelay 1 [] (by rw [herr]; exact nofun)]
      · exact sendLoop_error_src oracle rng msg.RegistrationIDs retries.toNat 0
          msg resp [] backoffInitialDelay [] e herr

/-- Witness for C4: round 0 fails on a transport that always errors. -/
theorem C4_transport_failure_witness :
    checkSender sEx = none ∧
    checkMessage (some msgEx) = Except.ok msgEx ∧
    (0 : Int) ≤ 2 ∧
    (Sender.Send sEx (some msgEx) 2 oracleFail rngEx).outcome =
      SendOutcome.error "boom" ∧
    ((Sender.Send sEx (some msgEx) 2 oracleFail rngEx).msg = some msgEx ∧
      ∃ k ts, oracleFail k ts = Except.error "boom" ∧
        (Sender.Send sEx (some msgEx) 2 oracleFail rngEx).calls = k + 1) :=
  ⟨rfl, rfl, by norm_num, rfl,
    C4_transport_failure sEx msgEx 2 oracleFail rngEx "boom" rfl rfl
      (by norm_num) rfl⟩



/-- The always-succeeding transport `oracleLen` satisfies the per-round
length contract. -/
theorem oracleLen_contract :
    ∀ k ts r, oracleLen k ts = Except.ok r → r.Results.length = ts.length := by
  intro k ts r h
  simp only [oracleLen] at h
  cases h
  simp

/-- C1: for every sender, message, non-negative retry budget and transport
satisfying the per-round length contract, a non-error response of `Send` has
exactly as many results as the original RegistrationIDs list; moreover either
the results are obtained per-registration-ID from one consistent record (the
reconciled path: position i holds the recorded result for the i-th original
ID) or the response is round 0's response verbatim (the fast path, aligned
positionally by the transport contract). -/
theorem C1_alignment (s : Sender) (msg : Message) (retries : Int)
    (oracle : Transport) (rng : Nat → Nat) (resp : Response)
    (hlen : ∀ k ts r, oracle k ts = Except.ok r → r.Results.length = ts.length)
    (hr : 0 ≤ retries)
    (hok : (Sender.Send s (some msg) retries oracle rng).outcome =
      SendOutcome.ok resp) :
    resp.Results.length = msg.RegistrationIDs.length ∧
    ((∃ recorded : String → Result,
        resp.Results = msg.RegistrationIDs.map recorded) ∨
      oracle 0 msg.RegistrationIDs = Except.ok resp) := by
  unfold Sender.Send at hok
  cases hcs : checkSender s with
  | some e => rw [hcs] at hok; exact absurd hok (by simp)
  | none =>
    rw [hcs] at hok
    dsimp only at hok
    cases hcm : checkMessage (some msg) with
    | error e => rw [hcm] at hok; exact absurd hok (by simp)
    | ok m =>
      rw [hcm] at hok
      rw [show m = msg from (Option.some.inj (checkMessage_ok hcm)).symm] at hok
      dsimp only at hok
      rw [if_neg (by omega)] at hok
      cases h0 : oracle 0 msg.RegistrationIDs with
      | error e0 => rw [h0] at hok; exact absurd hok (by simp)
      | ok resp0 =>
        rw [h0] at hok
        dsimp only at hok
        by_cases hfast : resp0.Failure = 0 ∨ retries = 0
        · rw [if_pos hfast] at hok
          simp only [SendOutcome.ok.injEq] at hok
          subst hok
          exact ⟨hlen 0 _ _ h0, Or.inr rfl⟩
        · rw [if_neg hfast] at hok
          obtain ⟨m2, mid, rfl⟩ := sendLoop_ok_shape oracle rng
            msg.RegistrationIDs retries.toNat 0 msg resp0 [] backoffInitialDelay
            1 [] resp hok
          refine ⟨by simp [buildFinal],
            Or.inl ⟨fun id => (mapLookup m2 id).getD zeroResult, rfl⟩⟩

/-- Witness for C1: a three-target send whose round 0 succeeds for every
target. -/
theorem C1_alignment_witness :
    (∀ k ts r, oracleLen k ts = Except.ok r → r.Results.length = ts.length) ∧
    (0 : Int) ≤ 1 ∧
    (Sender.Send sEx (some msgEx) 1 oracleLen rngEx).outcome =
      SendOutcome.ok ⟨7, 3, 0, 0, [⟨"m", "", ""⟩, ⟨"m", "", ""⟩, ⟨"m", "", ""⟩]⟩ ∧
    ((⟨7, 3, 0, 0, [⟨"m", "", ""⟩, ⟨"m", "", ""⟩, ⟨"m", "", ""⟩]⟩ :
        Response).Results.length = msgEx.RegistrationIDs.length ∧
      ((∃ recorded : String → Result,
          (⟨7, 3, 0, 0, [⟨"m", "", ""⟩, ⟨"m", "", ""⟩, ⟨"m", "", ""⟩]⟩ :
            Response).Results = msgEx.RegistrationIDs.map recorded) ∨
        oracleLen 0 msgEx.RegistrationIDs =
          Except.ok ⟨7, 3, 0, 0, [⟨"m", "", ""⟩, ⟨"m", "", ""⟩, ⟨"m", "", ""⟩]⟩)) :=
  ⟨oracleLen_contract, by norm_num, rfl,
    C1_alignment sEx msgEx 1 oracleLen rngEx _ oracleLen_contract (by norm_num)
      rfl⟩

/-- C2 counterexample: a round in which every target's result is retryable.
The next round's target set equals the current round's entire target set
(`["a"]`), which is neither empty nor a strict subset of it, refuting
"strict subset or empty" and with it budget-independent termination. -/
theorem C2_counterexample :
    updateStatus ⟨["a"], 0⟩ ⟨0, 0, 1, 0, [⟨"", "", "Unavailable"⟩]⟩ [] =
      some (⟨["a"], 0⟩, [("a", ⟨"", "", "Unavailable"⟩)], 1) ∧
    ¬((["a"] : List String) = [] ∨
      ((∀ x ∈ (["a"] : List String), x ∈ (["a"] : List String)) ∧
        ∃ x ∈ (["a"] : List String), x ∉ (["a"] : List String))) := by
  exact ⟨by decide, by decide⟩

/-- C2 (amended): the set of targets sent in round k+1 is exactly the subset
of round k's targets whose per-target result carried the retryable error kind
"Unavailable", and it is a subset — not necessarily strict — of round k's
target set; termination is guaranteed by the retry budget: the number of
transport exchanges of any call is at most the budget plus one. -/
theorem C2_retryable_subset :
    (∀ (msg : Message) (resp : Response) (all : ResMap)
      (out : Message × ResMap × Nat), updateStatus msg resp all = some out →
      out.1.RegistrationIDs =
        retryableTargets msg.RegistrationIDs resp.Results ∧
      ∀ x ∈ out.1.RegistrationIDs, x ∈ msg.RegistrationIDs) ∧
    ∀ (s : Sender) (msg? : Option Message) (retries : Int)
      (oracle : Transport) (rng : Nat → Nat),
      (Sender.Send s msg? retries oracle rng).calls ≤ retries.toNat + 1 := by
  constructor
  · intro msg resp all out h
    obtain ⟨msg2, all2, cnt⟩ := out
    have hs := updateStatus_some h
    exact ⟨hs.1, fun x hx => retryableTargets_mem (hs.1 ▸ hx)⟩
  · intro s msg? retries oracle rng
    unfold Sender.Send
    cases checkSender s with
    | some e => exact Nat.zero_le _
    | none =>
      dsimp only
      cases checkMessage msg? with
      | error e => exact Nat.zero_le _
      | ok msg =>
        dsimp only
        by_cases hneg : retries < 0
        · rw [if_pos hneg]
          exact Nat.zero_le _
        · rw [if_neg hneg]
          cases oracle 0 msg.RegistrationIDs with
          | error e => dsimp only; omega
          | ok resp =>
            dsimp only
            by_cases hfast : resp.Failure = 0 ∨ retries = 0
            · rw [if_pos hfast]
              dsimp only
              omega
            · rw [if_neg hfast]
              have hle := sendLoop_calls_le oracle rng msg.RegistrationIDs
                retries.toNat 0 msg resp [] backoffInitialDelay 1 []
              omega

/-- Witness for C2 (amended), at the worked example's round-0 response. -/
theorem C2_retryable_subset_witness :
    ((⟨["r2"], 0⟩ : Message).RegistrationIDs =
      retryableTargets msgEx.RegistrationIDs resp0Ex.Results ∧
      ∀ x ∈ (⟨["r2"], 0⟩ : Message).RegistrationIDs,
        x ∈ msgEx.RegistrationIDs) ∧
    (Sender.Send sEx (some msgEx) 1 oracleEx rngEx).calls ≤ Int.toNat 1 + 1 :=
  ⟨C2_retryable_subset.1 msgEx resp0Ex []
      (⟨["r2"], 0⟩,
        [("r3", ⟨"", "", "NotRegistered"⟩), ("r2", ⟨"", "", "Unavailable"⟩),
          ("r1", ⟨"mid1", "", ""⟩)], 1) (by decide),
    C2_retryable_subset.2 sEx (some msgEx) 1 oracleEx rngEx⟩



/-- True exactly on error outcomes. -/
def SendOutcome.isErr : SendOutcome → Bool
  | SendOutcome.error _ => true
  | _ => false

/-- The validation conditions the claim enumerates: nil message, empty
registration-ID list, more than 1000 registration IDs, time-to-live out of
`[0, 2419200]`. -/
def badMessage : Option Message → Bool
  | none => true
  | some msg =>
    decide (msg.RegistrationIDs.length = 0) ||
    decide (msg.RegistrationIDs.length > maxRegistrationIDs) ||
    decide (msg.TimeToLive < 0) || decide (maxTimeToLive < msg.TimeToLive)

/-- The claim's full enumerated condition: bad message or empty API key. -/
def badInput (s : Sender) (msg? : Option Message) : Bool :=
  decide (s.ApiKey = "") || badMessage msg?

/-- The call returned an error before performing any transport exchange. -/
def preTransportError (st : SendResult) : Prop :=
  st.calls = 0 ∧ st.outcome.isErr = true

/-- A message not flagged by `badMessage` passes `checkMessage`. -/
theorem checkMessage_of_badMessage_false {msg? : Option Message}
    (h : badMessage msg? = false) :
    ∃ m, checkMessage msg? = Except.ok m := by
  cases msg? with
  | none => simp [badMessage] at h
  | some m =>
    simp only [badMessage, Bool.or_eq_false_iff, decide_eq_false_iff_not] at h
    obtain ⟨⟨⟨h1, h2⟩, h3⟩, h4⟩ := h
    exact ⟨m, by simp [checkMessage, h1, h2, h3, h4]⟩

/-- A message flagged by `badMessage` is rejected by `checkMessage`. -/
theorem checkMessage_of_badMessage_true {msg? : Option Message}
    (h : badMessage msg? = true) :
    ∃ e, checkMessage msg? = Except.error e := by
  cases msg? with
  | none => exact ⟨_, rfl⟩
  | some m =>
    by_cases h1 : m.RegistrationIDs.length = 0
    · refine ⟨"the message must specify at least one registration ID", ?_⟩
      simp only [checkMessage]
      rw [if_pos h1]
    · by_cases h2 : m.RegistrationIDs.length > maxRegistrationIDs
      · refine ⟨"the message may specify at most 1000 registration IDs", ?_⟩
        simp only [checkMessage]
        rw [if_neg h1, if_pos h2]
      · by_cases h3 : m.TimeToLive < 0 ∨ maxTimeToLive < m.TimeToLive
        · refine ⟨"the message TimeToLive field must be an integer between 0 and 2419200", ?_⟩
          simp only [checkMessage]
          rw [if_neg h1, if_neg h2, if_pos h3]
        · exfalso
          simp only [badMessage, Bool.or_eq_true, decide_eq_true_eq] at h
          rcases h with ((a | a) | a) | a
          · exact h1 a
          · exact h2 a
          · exact h3 (Or.inl a)
          · exact h3 (Or.inr a)

/-- C7 counterexample: with a well-formed sender and message but a negative
retry budget, `Send` returns an error before any transport exchange even
though none of the claim's enumerated conditions holds, refuting the claimed
"exactly when". -/
theorem C7_counterexample :
    preTransportError
      (Sender.Send sEx (some msgEx) (-1) oracleLen rngEx) ∧
    badInput sEx (some msgEx) = false :=
  ⟨⟨rfl, rfl⟩, by decide⟩

/-- C7 (amended): `SendNoRetry` returns an error before any transport
exchange exactly when the message is nil, its RegistrationIDs list is empty
(nil or zero-length), it has more than 1000 entries, TimeToLive is negative
or greater than 2419200, or the sender's ApiKey is empty; `Send` does so
exactly when one of those holds or the retry budget is negative.  In
particular 1000 targets and ttl 2419200 pass while 1001 targets or
ttl 2419201 fail. -/
theorem C7_validation_iff (s : Sender) (msg? : Option Message) (retries : Int)
    (oracle : Transport) (rng : Nat → Nat) :
    (preTransportError (Sender.SendNoRetry s msg? oracle) ↔
      badInput s msg? = true) ∧
    (preTransportError (Sender.Send s msg? retries oracle rng) ↔
      (badInput s msg? = true ∨ retries < 0)) := by
  by_cases hk : s.ApiKey = ""
  · have hcs : checkSender s = some "the sender API key must not be empty" := by
      simp [checkSender, hk]
    have hbi : badInput s msg? = true := by simp [badInput, hk]
    unfold Sender.Send Sender.SendNoRetry
    rw [hcs]
    simp [preTransportError, hbi, SendOutcome.isErr]
  · have hcs : checkSender s = none := by simp [checkSender, hk]
    cases hbm : badMessage msg? with
    | true =>
      obtain ⟨e, hcm⟩ := checkMessage_of_badMessage_true hbm
      have hbi : badInput s msg? = true := by simp [badInput, hbm]
      unfold Sender.Send Sender.SendNoRetry
      rw [hcs]
      dsimp only
      rw [hcm]
      simp [preTransportError, hbi, SendOutcome.isErr]
    | false =>
      obtain ⟨m, hcm⟩ := checkMessage_of_badMessage_false hbm
      have hbi : badInput s msg? = false := by simp [badInput, hbm, hk]
      unfold Sender.Send Sender.SendNoRetry
      rw [hcs]
      dsimp only
      rw [hcm]
      dsimp only
      constructor
      · cases h0 : oracle 0 m.RegistrationIDs <;>
          simp [preTransportError, hbi]
      · by_cases hneg : retries < 0
        · rw [if_pos hneg]
          simp [preTransportError, hbi, hneg, SendOutcome.isErr]
        · rw [if_neg hneg]
          cases h0 : oracle 0 m.RegistrationIDs with
          | error e2 => simp [preTransportError, hbi, hneg]
          | ok resp =>
            dsimp only
            by_cases hfast : resp.Failure = 0 ∨ retries = 0
            · rw [if_pos hfast]
              simp [preTransportError, hbi, hneg]
            · rw [if_neg hfast]
              have h1 := sendLoop_calls_ge oracle rng m.RegistrationIDs
                retries.toNat 0 m resp [] backoffInitialDelay 1 []
              simp only [preTransportError, hbi, Bool.false_eq_true, false_or]
              constructor
              · intro hpre
                omega
              · intro hlt
                exact absurd hlt hneg


end gcm
